import Mathlib

/-!
Shallow embedding of the PicoWifiRobotCar repository: the HTTP command server
of `WifiProtocolAPI.py` and `RobotCarWifi.py`, the class-wrapped server of
`WifiCommandServer.py`, and the keyboard client of `WifiCommandClient.py`.

Python strings are modelled as lists of characters (`Str`), the route
registry (a Python dict populated by `register_route`) as an
insertion-ordered association list with unique keys, and fallible behaviour
(UTF-8 decoding of the request bytes, calls raising TypeError) as `Option`.
-/

abbrev Str : Type := List Char

/-- Python `s.startswith(t)`. -/
def startswith : Str → Str → Bool
  | _, [] => true
  | [], _ :: _ => false
  | c :: s, d :: t => c == d && startswith s t

/-- Python `s.endswith(t)`. -/
def endswith (s t : Str) : Bool := startswith s.reverse t.reverse

/-- The query-normalization step shared by every `handle_path` in the source:
`if "?" in path: path, _ = path.split("?", 1)` keeps the characters strictly
before the first `?`. -/
def stripQuery (path : Str) : Str :=
  if path.contains '?' then path.takeWhile (fun c => c != '?') else path

/-- Python `request_str.split("\r\n")[0]`: the characters before the first
occurrence of CRLF (the whole string when no CRLF occurs). -/
def firstLine : Str → Str
  | [] => []
  | c :: s => if c == '\r' && startswith s ['\n'] then [] else c :: firstLine s

/-- Python `s.split(sep)` for a one-character separator, so that
`"".split(" ") = [""]` and `" ".split(" ") = ["", ""]`. -/
def splitChar (sep : Char) : Str → List Str
  | [] => [[]]
  | c :: s =>
    if c == sep then [] :: splitChar sep s
    else
      match splitChar sep s with
      | [] => [[c]]
      | t :: ts => (c :: t) :: ts

/-- A Python route handler stored in the registry: either a zero-parameter
function returning a string, or a one-parameter function from the path
remainder to a string. -/
inductive PyHandler where
  | arity0 (ret : Str)
  | arity1 (f : Str → Str)

/-- Python call `h()`: a one-parameter handler raises TypeError (`none`). -/
def callZero : PyHandler → Option Str
  | PyHandler.arity0 r => some r
  | PyHandler.arity1 _ => none

/-- Python call `h(arg)`: a zero-parameter handler raises TypeError (`none`). -/
def callOne : PyHandler → Str → Option Str
  | PyHandler.arity0 _, _ => none
  | PyHandler.arity1 f, a => some (f a)

/-- The route registry, a Python dict from path pattern to handler. -/
abbrev Registry : Type := List (Str × PyHandler)

/-- The observable routing outcome of `handle_path`: which registered pattern
was selected and how its handler was invoked. -/
inductive Invocation where
  | exact (pattern : Str)
  | remainder (pattern : Str) (arg : Str)
  | unknown (path : Str)
deriving DecidableEq

/-- Routing skeleton of `WifiProtocolAPI.handle_path` (lines 110-135),
recording the selected pattern and the handler argument instead of running
the handler: strip the query string, check exact dict membership first, else
scan the entries in insertion order for the first pattern that ends in `/`
and that the path starts with, else report the path as unknown. -/
def resolve (registry : Registry) (path : Str) : Invocation :=
  if (registry.lookup (stripQuery path)).isSome then
    Invocation.exact (stripQuery path)
  else
    match registry.find? (fun e => endswith e.1 "/".data && startswith (stripQuery path) e.1) with
    | some e => Invocation.remainder e.1 ((stripQuery path).drop e.1.length)
    | none => Invocation.unknown (stripQuery path)

/-- `WifiProtocolAPI.handle_path(path, registry)` (lines 110-135): strip the
query string, invoke an exact match with no argument, else invoke the first
matching pattern ending in `/` with the path remainder `path[len(p):]`, else
return the diagnostic string.  `none` models an uncaught TypeError raised by
calling a handler with the wrong number of arguments. -/
def WifiProtocolAPI.handle_path (path : Str) (registry : Registry) : Option Str :=
  match registry.lookup (stripQuery path) with
  | some h => callZero h
  | none =>
    match registry.find? (fun e => endswith e.1 "/".data && startswith (stripQuery path) e.1) with
    | some e => callOne e.2 ((stripQuery path).drop e.1.length)
    | none => some ("Unknown path: ".data ++ stripQuery path)

/-- Outcome of handling one connection: which routing invocation happened (if
dispatch reached the registry at all) and which status/body response was sent
(`none` when the server closes the connection without responding). -/
structure StepResult where
  invocation : Option Invocation
  response : Option (Nat × Str)
deriving DecidableEq

/-- The per-request dispatch of `WifiProtocolAPI.listen_http_wireless`
(lines 228-248): take the first CRLF line, split it on spaces, answer 400 on
fewer than two tokens, 405 on a method other than GET, and otherwise route
the path token through `handle_path` and wrap the result as a 200 response. -/
def WifiProtocolAPI.dispatch (registry : Registry) (request_str : Str) : StepResult :=
  if (splitChar ' ' (firstLine request_str)).length < 2 then
    ⟨none, some (400, "Malformed request".data)⟩
  else if (splitChar ' ' (firstLine request_str)).getD 0 [] == "GET".data then
    ⟨some (resolve registry ((splitChar ' ' (firstLine request_str)).getD 1 [])),
      (WifiProtocolAPI.handle_path ((splitChar ' ' (firstLine request_str)).getD 1 []) registry).map
        (fun t => (200, t))⟩
  else
    ⟨none, some (405, "Only GET supported".data)⟩

/-- Strict UTF-8 decoding as performed by Python `bytes.decode("utf-8")`:
rejects stray continuation bytes, overlong encodings, surrogate code points,
values beyond U+10FFFF, and truncated sequences. -/
def decodeUtf8 : List Nat → Option Str
  | [] => some []
  | b1 :: rest =>
    if b1 < 0x80 then
      (decodeUtf8 rest).map (fun s => Char.ofNat b1 :: s)
    else if b1 < 0xC2 then none
    else if b1 ≤ 0xDF then
      match rest with
      | b2 :: rest2 =>
        if 0x80 ≤ b2 ∧ b2 < 0xC0 then
          (decodeUtf8 rest2).map (fun s => Char.ofNat ((b1 - 0xC0) * 0x40 + (b2 - 0x80)) :: s)
        else none
      | [] => none
    else if b1 = 0xE0 then
      match rest with
      | b2 :: b3 :: rest3 =>
        if 0xA0 ≤ b2 ∧ b2 < 0xC0 ∧ 0x80 ≤ b3 ∧ b3 < 0xC0 then
          (decodeUtf8 rest3).map
            (fun s => Char.ofNat ((b2 - 0x80) * 0x40 + (b3 - 0x80)) :: s)
        else none
      | _ => none
    else if b1 = 0xED then
      match rest with
      | b2 :: b3 :: rest3 =>
        if 0x80 ≤ b2 ∧ b2 < 0xA0 ∧ 0x80 ≤ b3 ∧ b3 < 0xC0 then
          (decodeUtf8 rest3).map
            (fun s => Char.ofNat (0xD000 + (b2 - 0x80) * 0x40 + (b3 - 0x80)) :: s)
        else none
      | _ => none
    else if b1 ≤ 0xEF then
      match rest with
      | b2 :: b3 :: rest3 =>
        if 0x80 ≤ b2 ∧ b2 < 0xC0 ∧ 0x80 ≤ b3 ∧ b3 < 0xC0 then
          (decodeUtf8 rest3).map
            (fun s => Char.ofNat ((b1 - 0xE0) * 0x1000 + (b2 - 0x80) * 0x40 + (b3 - 0x80)) :: s)
        else none
      | _ => none
    else if b1 ≤ 0xF4 then
      match rest with
      | b2 :: b3 :: b4 :: rest4 =>
        if (if b1 = 0xF0 then 0x90 ≤ b2 ∧ b2 < 0xC0
            else if b1 = 0xF4 then 0x80 ≤ b2 ∧ b2 < 0x90
            else 0x80 ≤ b2 ∧ b2 < 0xC0) ∧ 0x80 ≤ b3 ∧ b3 < 0xC0 ∧ 0x80 ≤ b4 ∧ b4 < 0xC0 then
          (decodeUtf8 rest4).map
            (fun s =>
              Char.ofNat
                ((b1 - 0xF0) * 0x40000 + (b2 - 0x80) * 0x1000 + (b3 - 0x80) * 0x40 + (b4 - 0x80)) :: s)
        else none
      | _ => none
    else none

/-- One iteration of the `WifiProtocolAPI.listen_http_wireless` loop after a
request buffer has been received (lines 214-248): an empty buffer is dropped
with no response, undecodable bytes answer 400 before any line parsing, and
a decoded request string goes to `dispatch`. -/
def WifiProtocolAPI.serverStep (registry : Registry) (request : List Nat) : StepResult :=
  if request.isEmpty then ⟨none, none⟩
  else
    match decodeUtf8 request with
    | none => ⟨none, some (400, "Bad request encoding".data)⟩
    | some s => WifiProtocolAPI.dispatch registry s

/-- Decimal rendering of a natural number, for the status line and the
Content-Length header. -/
def natToStr (n : Nat) : Str := (Nat.repr n).data

/-- The reason phrase of `send_http_response`:
`reason = "OK" if status_code == 200 else "ERROR"`. -/
def reasonOf (status_code : Nat) : Str :=
  if status_code == 200 then "OK".data else "ERROR".data

/-- The response text built by `send_http_response` (`WifiProtocolAPI.py`
lines 77-88): note that the Content-Length field carries `len(body)`, the
number of characters of `body`. -/
def send_http_response (status_code : Nat) (body : Str) : Str :=
  "HTTP/1.1 ".data ++ natToStr status_code ++ " ".data ++ reasonOf status_code ++ "\r\n".data
    ++ "Content-Type: text/plain\r\n".data
    ++ "Connection: close\r\n".data
    ++ "Content-Length: ".data ++ natToStr body.length ++ "\r\n".data
    ++ "\r\n".data
    ++ body

/-- UTF-8 encoding of one character, as used by `response.encode("utf-8")`. -/
def utf8EncodeChar (c : Char) : List Nat :=
  if c.toNat < 0x80 then [c.toNat]
  else if c.toNat < 0x800 then [0xC0 + c.toNat / 0x40, 0x80 + c.toNat % 0x40]
  else if c.toNat < 0x10000 then
    [0xE0 + c.toNat / 0x1000, 0x80 + (c.toNat / 0x40) % 0x40, 0x80 + c.toNat % 0x40]
  else
    [0xF0 + c.toNat / 0x40000, 0x80 + (c.toNat / 0x1000) % 0x40,
      0x80 + (c.toNat / 0x40) % 0x40, 0x80 + c.toNat % 0x40]

/-- UTF-8 encoding of a string, as `s.encode("utf-8")`: the bytes the server
actually puts on the wire. -/
def utf8Encode (s : Str) : List Nat := (s.map utf8EncodeChar).flatten

/-- The remainder of `s` after the first occurrence of `marker`, or `none`
when `marker` does not occur.  Used to read a header value back out of a
response text. -/
def afterMarker (marker : Str) : Str → Option Str
  | [] => none
  | c :: s =>
    if startswith (c :: s) marker then some ((c :: s).drop marker.length)
    else afterMarker marker s

/-- Decimal parsing of a digit string. -/
def strToNatAux : Str → Nat → Nat
  | [], acc => acc
  | c :: s, acc => strToNatAux s (acc * 10 + (c.toNat - '0'.toNat))

/-- The numeric value of the Content-Length header inside a response text. -/
def contentLengthValue (resp : Str) : Option Nat :=
  (afterMarker "Content-Length: ".data resp).map
    (fun r => strToNatAux (r.takeWhile Char.isDigit) 0)

/-- The help text returned by the hardcoded dispatchers for the root path
(`RobotCarWifi.handle_path` lines 111-121, identical in
`WifiProtocolAPI.handle_path_old`). -/
def helpText : Str :=
  ("Robot Car HTTP Control (AP mode)\n" ++
   "Commands:\n" ++
   "  /forward\n" ++
   "  /back\n" ++
   "  /left\n" ++
   "  /right\n" ++
   "  /stop\n" ++
   "  /sound/<name>\n").data

/-- A call to `move_servo(left, right)`; the throttle literals of the source
(-1.0, -0.5, 0.0, 0.5, 1.0) are represented exactly as rationals, and
`stop()` is `move_servo(0.0, 0.0)`. -/
inductive ServoCall where
  | move (left right : Rat)
deriving DecidableEq

/-- The hardcoded `RobotCarWifi.handle_path` (lines 98-153, textually
identical to `WifiProtocolAPI.handle_path_old`): strips the query string,
answers the root path with the help text before any command matching, then
runs the if/elif command chain; the returned pair collects the servo calls
performed and the result string. -/
def RobotCarWifi.handle_path (path : Str) : List ServoCall × Str :=
  if stripQuery path == "/".data || stripQuery path == [] then
    ([], helpText)
  else if stripQuery path == "/stop".data then
    ([ServoCall.move 0 0], "stop".data)
  else if stripQuery path == "/forward".data then
    ([ServoCall.move (-1) (-1)], "forward".data)
  else if stripQuery path == "/back".data then
    ([ServoCall.move 1 1], "back".data)
  else if stripQuery path == "/left".data then
    ([ServoCall.move (-(1/2)) (1/2)], "left".data)
  else if stripQuery path == "/right".data then
    ([ServoCall.move (1/2) (-(1/2))], "right".data)
  else if startswith (stripQuery path) "/sound/".data then
    ([], "sound:".data ++ (stripQuery path).drop "/sound/".data.length)
  else
    ([], "Unknown path: ".data ++ stripQuery path)

/-- `WifiCommandClient.compute_command` (lines 47-67): chooses the command
from the currently pressed movement keys. -/
def compute_command (active_keys : List Char) : Str :=
  let w := active_keys.contains 'w'
  let a := active_keys.contains 'a'
  let s := active_keys.contains 's'
  let d := active_keys.contains 'd'
  if w && !s && !a && !d then "forward".data
  else if s && !w && !a && !d then "back".data
  else if a && !d && !w && !s then "left".data
  else if d && !a && !w && !s then "right".data
  else "stop".data

/-- A Python value passed as a positional argument inside
`WifiCommandServer`: either a path string or the registry dict. -/
inductive PyVal where
  | vstr (s : Str)
  | vreg (r : Registry)

/-- Body of `WifiCommandServer.handle_path(self, path)` (lines 143-167),
textually identical to `WifiProtocolAPI.handle_path` with the registry read
from `self.registry`. -/
def WifiCommandServer.handle_path (registry : Registry) (path : Str) : Option Str :=
  WifiProtocolAPI.handle_path path registry

/-- A positional call to the bound method `WifiCommandServer.handle_path`,
whose signature accepts exactly one argument `path`; any other argument
count raises TypeError, modelled as `none`. -/
def WifiCommandServer.call_handle_path (registry : Registry) (args : List PyVal) :
    Option (Option Str) :=
  match args with
  | [PyVal.vstr path] => some (WifiCommandServer.handle_path registry path)
  | _ => none

/-- A positional call to the bound method
`WifiCommandServer.listen_http_wireless`, whose signature accepts no
arguments besides `self`; any argument raises TypeError (`none`), while
`some ()` means the blocking loop is entered. -/
def WifiCommandServer.call_listen_http_wireless (args : List PyVal) : Option Unit :=
  match args with
  | [] => some ()
  | _ => none

/-- `WifiCommandServer.start` (lines 38-39): calls
`self.listen_http_wireless(self.registry)` with one extra positional
argument. -/
def WifiCommandServer.start (registry : Registry) : Option Unit :=
  WifiCommandServer.call_listen_http_wireless [PyVal.vreg registry]

/-- The per-request dispatch of `WifiCommandServer.listen_http_wireless`
(lines 206-226): as the free-function version, except that the 405 body
reads "Only GET supported at this time" and that the path is routed through
`self.handle_path(path, self.registry)` — a two-argument call against the
one-parameter signature, whose TypeError reaches the catch-all handler so
that no response is sent (`none`). -/
def WifiCommandServer.dispatch (registry : Registry) (request_str : Str) : Option (Nat × Str) :=
  if (splitChar ' ' (firstLine request_str)).length < 2 then
    some (400, "Malformed request".data)
  else if (splitChar ' ' (firstLine request_str)).getD 0 [] == "GET".data then
    match
      WifiCommandServer.call_handle_path registry
        [PyVal.vstr ((splitChar ' ' (firstLine request_str)).getD 1 []), PyVal.vreg registry]
    with
    | none => none
    | some result => result.map (fun t => (200, t))
  else
    some (405, "Only GET supported at this time".data)

/-- One iteration of the `WifiCommandServer.listen_http_wireless` loop after
a request buffer has been received (lines 192-226). -/
def WifiCommandServer.connectionStep (registry : Registry) (request : List Nat) :
    Option (Nat × Str) :=
  if request.isEmpty then none
  else
    match decodeUtf8 request with
    | none => some (400, "Bad request encoding".data)
    | some s => WifiCommandServer.dispatch registry s

/-- A registry holding the single example route of the sources: the pattern
`/sound/` (ending in `/`) bound to a one-parameter handler. -/
def soundRegistry : Registry :=
  [("/sound/".data, PyHandler.arity1 (fun nm => "sound:".data ++ nm))]

/-- A registry holding the single exact route `/stop`. -/
def stopRegistry : Registry :=
  [("/stop".data, PyHandler.arity0 "stop".data)]

/-- A well-formed GET request line for a given path. -/
def mkGetRequest (p : Str) : Str := "GET ".data ++ p ++ " HTTP/1.1".data

/-- The UTF-8 bytes of a concrete well-formed GET request. -/
def getRequestBytes : List Nat := "GET /stop HTTP/1.1\r\n\r\n".data.map Char.toNat

/-! Helper lemmas about the string primitives. -/

theorem contains_eq_false_iff (l : Str) (c : Char) : l.contains c = false ↔ c ∉ l := by
  simp only [List.elem_eq_mem, decide_eq_false_iff_not]

theorem contains_eq_true_iff (l : Str) (c : Char) : l.contains c = true ↔ c ∈ l := by
  simp only [List.elem_eq_mem, decide_eq_true_eq]

theorem stripQuery_of_not_mem (s : Str) (h : '?' ∉ s) : stripQuery s = s := by
  have hc : s.contains '?' = false := (contains_eq_false_iff s '?').mpr h
  unfold stripQuery
  rw [hc]
  simp

theorem takeWhile_q_append (p q : Str) :
    (p ++ '?' :: q).takeWhile (fun c => c != '?') = p.takeWhile (fun c => c != '?') := by
  induction p with
  | nil => simp [List.takeWhile]
  | cons x xs ih => by_cases hx : x = '?' <;> simp [List.takeWhile_cons, hx, ih]

theorem takeWhile_q_of_not_mem (p : Str) (h : '?' ∉ p) :
    p.takeWhile (fun c => c != '?') = p := by
  induction p with
  | nil => rfl
  | cons x xs ih =>
      simp only [List.mem_cons, not_or] at h
      have hx : x ≠ '?' := fun hh => h.1 hh.symm
      simp [List.takeWhile_cons, hx, ih h.2]

theorem stripQuery_append_q (p q : Str) : stripQuery (p ++ '?' :: q) = stripQuery p := by
  have hc : (p ++ '?' :: q).contains '?' = true :=
    (contains_eq_true_iff _ _).mpr (by simp)
  unfold stripQuery
  rw [hc]
  cases hb : p.contains '?' with
  | true =>
      simp only [if_pos rfl]
      exact takeWhile_q_append p q
  | false =>
      simp only [if_pos rfl, Bool.false_eq_true, if_false]
      exact (takeWhile_q_append p q).trans
        (takeWhile_q_of_not_mem p ((contains_eq_false_iff _ _).mp hb))

theorem firstLine_of_not_mem (s : Str) (h : '\r' ∉ s) : firstLine s = s := by
  induction s with
  | nil => rfl
  | cons c cs ih =>
      simp only [List.mem_cons, not_or] at h
      have hc : (c == '\r') = false := beq_eq_false_iff_ne.mpr (fun hh => h.1 hh.symm)
      simp [firstLine, hc, ih h.2]

theorem splitChar_of_not_mem (sep : Char) (a : Str) (h : sep ∉ a) : splitChar sep a = [a] := by
  induction a with
  | nil => rfl
  | cons x xs ih =>
      simp only [List.mem_cons, not_or] at h
      have hx : (x == sep) = false := beq_eq_false_iff_ne.mpr (fun hh => h.1 hh.symm)
      simp [splitChar, hx, ih h.2]

theorem splitChar_append (sep : Char) (a b : Str) (h : sep ∉ a) :
    splitChar sep (a ++ sep :: b) = a :: splitChar sep b := by
  induction a with
  | nil => simp [splitChar]
  | cons x xs ih =>
      simp only [List.mem_cons, not_or] at h
      have hx : (x == sep) = false := beq_eq_false_iff_ne.mpr (fun hh => h.1 hh.symm)
      simp [splitChar, hx, ih h.2]

theorem split_mkGetRequest (p : Str) (hsp : ' ' ∉ p) (hcr : '\r' ∉ p) :
    splitChar ' ' (firstLine (mkGetRequest p)) = ["GET".data, p, "HTTP/1.1".data] := by
  have hnotr : '\r' ∉ mkGetRequest p := by
    intro hmem
    rcases List.mem_append.mp hmem with h1 | h2
    · rcases List.mem_append.mp h1 with h3 | h4
      · exact absurd h3 (by decide)
      · exact hcr h4
    · exact absurd h2 (by decide)
  rw [firstLine_of_not_mem _ hnotr]
  have hshape : mkGetRequest p = "GET".data ++ ' ' :: (p ++ ' ' :: "HTTP/1.1".data) := rfl
  rw [hshape, splitChar_append ' ' "GET".data _ (by decide),
    splitChar_append ' ' p _ hsp, splitChar_of_not_mem ' ' "HTTP/1.1".data (by decide)]

/-! Helper lemmas about `resolve` and `handle_path`. -/

theorem resolve_exact_of_lookup (r : Registry) (p : Str)
    (h : (r.lookup (stripQuery p)).isSome = true) :
    resolve r p = Invocation.exact (stripQuery p) := by
  simp [resolve, h]

theorem resolve_unknown_of_no_match (r : Registry) (p : Str)
    (h1 : (r.lookup (stripQuery p)).isNone = true)
    (h2 : (r.find? (fun e => endswith e.1 "/".data && startswith (stripQuery p) e.1)).isNone
          = true) :
    resolve r p = Invocation.unknown (stripQuery p) := by
  rw [Option.isNone_iff_eq_none] at h1 h2
  simp [resolve, h1, h2]

theorem handle_path_unknown_of_no_match (r : Registry) (p : Str)
    (h1 : (r.lookup (stripQuery p)).isNone = true)
    (h2 : (r.find? (fun e => endswith e.1 "/".data && startswith (stripQuery p) e.1)).isNone
          = true) :
    WifiProtocolAPI.handle_path p r = some ("Unknown path: ".data ++ stripQuery p) := by
  rw [Option.isNone_iff_eq_none] at h1 h2
  simp [WifiProtocolAPI.handle_path, h1, h2]

theorem resolve_remainder_of_first (r : Registry) (p P : Str)
    (h1 : (r.lookup (stripQuery p)).isNone = true)
    (h2 : (r.find? (fun e => endswith e.1 "/".data && startswith (stripQuery p) e.1)).map
            Prod.fst = some P) :
    resolve r p = Invocation.remainder P ((stripQuery p).drop P.length) := by
  rw [Option.isNone_iff_eq_none] at h1
  rcases Option.map_eq_some'.mp h2 with ⟨e, he, hfst⟩
  subst hfst
  simp [resolve, h1, he]

/-! The claims. -/

/-- C1, counterexample to the claim as stated: in a registry containing the
pattern `/sound/` (which ends in `/`), resolving the bare pattern `/sound/`
takes the exact-match branch and calls the handler with no argument, not the
claimed invocation with argument `""`; the zero-argument call of the
one-parameter handler raises TypeError, so `handle_path` returns no result. -/
theorem claim1_counterexample :
    resolve soundRegistry "/sound/".data = Invocation.exact "/sound/".data ∧
    Invocation.exact "/sound/".data ≠ Invocation.remainder "/sound/".data [] ∧
    WifiProtocolAPI.handle_path "/sound/".data soundRegistry = none := by
  exact ⟨by decide, by decide, rfl⟩

/-- C1, amended: for a registered pattern P ending in `/` and a suffix S,
when P ++ S contains no query delimiter, is not itself a registered key, and
P is the first registered pattern (in insertion order) ending in `/` that
P ++ S starts with, then `resolve (P ++ S)` selects P's handler with
argument S; the bare pattern P itself instead hits the exact-match branch
first and is invoked with no argument. -/
theorem claim1_amended (r : Registry) (P S : Str)
    (hqP : '?' ∉ P) (hqS : '?' ∉ S)
    (hnx : (r.lookup (P ++ S)).isNone = true)
    (hfst : (r.find? (fun e => endswith e.1 "/".data && startswith (P ++ S) e.1)).map Prod.fst
            = some P) :
    resolve r (P ++ S) = Invocation.remainder P S ∧
    ((r.lookup P).isSome = true → resolve r P = Invocation.exact P) := by
  have hq : '?' ∉ P ++ S := by
    intro hm
    rcases List.mem_append.mp hm with h | h
    exacts [hqP h, hqS h]
  have hstrip : stripQuery (P ++ S) = P ++ S := stripQuery_of_not_mem _ hq
  constructor
  · have hres := resolve_remainder_of_first r (P ++ S) P
      (by rw [hstrip]; exact hnx) (by rw [hstrip]; exact hfst)
    rw [hstrip, List.drop_left] at hres
    exact hres
  · intro hP
    have hstripP : stripQuery P = P := stripQuery_of_not_mem _ hqP
    have hres := resolve_exact_of_lookup r P (by rw [hstripP]; exact hP)
    rw [hstripP] at hres
    exact hres

/-- C1, witness: the amended theorem applied to the `/sound/` registry with
suffix `beep`. -/
theorem claim1_witness :
    ('?' ∉ "/sound/".data) ∧
    resolve soundRegistry ("/sound/".data ++ "beep".data) =
      Invocation.remainder "/sound/".data "beep".data ∧
    resolve soundRegistry "/sound/".data = Invocation.exact "/sound/".data :=
  ⟨by decide,
   (claim1_amended soundRegistry "/sound/".data "beep".data (by decide) (by decide)
      (by decide) (by decide)).1,
   (claim1_amended soundRegistry "/sound/".data "beep".data (by decide) (by decide)
      (by decide) (by decide)).2 (by decide)⟩

/-- C2: whenever the query-stripped path is a registered key, `resolve`
selects the exact match — regardless of any registered patterns ending in
`/` that the path also starts with, since the membership test precedes the
whole iteration — and `handle_path` invokes that key's handler with no
argument. -/
theorem claim2_exact_precedence (r : Registry) (p : Str)
    (h : (r.lookup (stripQuery p)).isSome = true) :
    resolve r p = Invocation.exact (stripQuery p) ∧
    (∀ hd, r.lookup (stripQuery p) = some hd →
      WifiProtocolAPI.handle_path p r = callZero hd) := by
  refine ⟨resolve_exact_of_lookup r p h, fun hd hhd => ?_⟩
  simp [WifiProtocolAPI.handle_path, hhd]

/-- C2, witness: the exact route `/stop` of `stopRegistry`. -/
theorem claim2_witness :
    ((stopRegistry.lookup (stripQuery "/stop".data)).isSome = true) ∧
    resolve stopRegistry "/stop".data = Invocation.exact (stripQuery "/stop".data) :=
  ⟨by decide, (claim2_exact_precedence stopRegistry "/stop".data (by decide)).1⟩

/-- C3: on a path whose stripped form is neither a registered key nor an
extension of a registered pattern ending in `/`, `resolve` returns the
unknown-route outcome and `handle_path` returns normally with the diagnostic
string; the surrounding dispatcher wraps it as a 200 response whose body is
exactly "Unknown path: " followed by the query-stripped path. -/
theorem claim3_unknown_route (r : Registry) (p : Str)
    (h1 : (r.lookup (stripQuery p)).isNone = true)
    (h2 : (r.find? (fun e => endswith e.1 "/".data && startswith (stripQuery p) e.1)).isNone
          = true)
    (hsp : ' ' ∉ p) (hcr : '\r' ∉ p) :
    resolve r p = Invocation.unknown (stripQuery p) ∧
    WifiProtocolAPI.handle_path p r = some ("Unknown path: ".data ++ stripQuery p) ∧
    WifiProtocolAPI.dispatch r (mkGetRequest p) =
      ⟨some (Invocation.unknown (stripQuery p)),
        some (200, "Unknown path: ".data ++ stripQuery p)⟩ := by
  refine ⟨resolve_unknown_of_no_match r p h1 h2,
    handle_path_unknown_of_no_match r p h1 h2, ?_⟩
  have hsplit := split_mkGetRequest p hsp hcr
  simp [WifiProtocolAPI.dispatch, hsplit, resolve_unknown_of_no_match r p h1 h2,
    handle_path_unknown_of_no_match r p h1 h2]

/-- C3, witness: `GET /nope` against the `/stop` registry. -/
theorem claim3_witness :
    ((stopRegistry.lookup (stripQuery "/nope".data)).isNone = true) ∧
    WifiProtocolAPI.dispatch stopRegistry (mkGetRequest "/nope".data) =
      ⟨some (Invocation.unknown (stripQuery "/nope".data)),
        some (200, "Unknown path: ".data ++ stripQuery "/nope".data)⟩ :=
  ⟨by decide,
   (claim3_unknown_route stopRegistry "/nope".data (by decide) (by decide) (by decide)
      (by decide)).2.2⟩

/-- C4: appending a `?`-delimited query suffix to any path changes neither
the routing invocation chosen by `resolve` nor the result of `handle_path`,
for every registry. -/
theorem claim4_query_strip (r : Registry) (p q : Str) :
    resolve r (p ++ '?' :: q) = resolve r p ∧
    WifiProtocolAPI.handle_path (p ++ '?' :: q) r = WifiProtocolAPI.handle_path p r := by
  have h := stripQuery_append_q p q
  exact ⟨by simp only [resolve, h], by simp only [WifiProtocolAPI.handle_path, h]⟩

/-- C5: evaluation of `send_http_response` at the failing input status 200,
body "é" (U+00E9): the Content-Length field of the emitted response carries
1 (the character count used by the code), while the UTF-8 encoding of the
body — the bytes actually sent — is 2 bytes long; the derived reason phrase
itself behaves as claimed. -/
theorem claim5_content_length_divergence :
    contentLengthValue (send_http_response 200 [Char.ofNat 0xE9]) = some 1 ∧
    (utf8Encode [Char.ofNat 0xE9]).length = 2 ∧
    reasonOf 200 = "OK".data ∧ reasonOf 400 = "ERROR".data := by decide

/-- C6, counterexample to the claim as stated: for a non-GET request the
class-wrapped server answers 405 with body "Only GET supported at this
time", not the claimed exact body "Only GET supported". -/
theorem claim6_counterexample :
    WifiCommandServer.dispatch [] "POST /stop HTTP/1.1".data =
      some (405, "Only GET supported at this time".data) ∧
    "Only GET supported at this time".data ≠ "Only GET supported".data := by
  exact ⟨by decide, by decide⟩

/-- C6, amended: a parsed request line with at least two tokens whose method
token is not GET is answered with status 405 and no routing invocation; the
body is exactly "Only GET supported" in the free-function server and "Only
GET supported at this time" in the class-wrapped server. -/
theorem claim6_amended_method_check (r : Registry) (s : Str)
    (hlen : ¬ (splitChar ' ' (firstLine s)).length < 2)
    (hm : ((splitChar ' ' (firstLine s)).getD 0 [] == "GET".data) = false) :
    WifiProtocolAPI.dispatch r s = ⟨none, some (405, "Only GET supported".data)⟩ ∧
    WifiCommandServer.dispatch r s = some (405, "Only GET supported at this time".data) := by
  constructor
  · unfold WifiProtocolAPI.dispatch
    rw [if_neg hlen, hm]
    simp
  · unfold WifiCommandServer.dispatch
    rw [if_neg hlen, hm]
    simp

/-- C6, witness: the amended theorem applied to `POST / HTTP/1.1`. -/
theorem claim6_witness :
    (¬ (splitChar ' ' (firstLine "POST / HTTP/1.1".data)).length < 2) ∧
    (((splitChar ' ' (firstLine "POST / HTTP/1.1".data)).getD 0 [] == "GET".data) = false) ∧
    WifiProtocolAPI.dispatch [] "POST / HTTP/1.1".data =
      ⟨none, some (405, "Only GET supported".data)⟩ :=
  ⟨by decide, by decide,
   (claim6_amended_method_check [] "POST / HTTP/1.1".data (by decide) (by decide)).1⟩

/-- C7, counterexample to the claim as stated: the empty byte buffer is
decodable (to the empty string, whose first line yields a single token,
fewer than two), yet the server closes the connection with no response at
all instead of the claimed 400 "Malformed request". -/
theorem claim7_counterexample :
    decodeUtf8 [] = some [] ∧
    (splitChar ' ' (firstLine [])).length < 2 ∧
    WifiProtocolAPI.serverStep [] [] = ⟨none, none⟩ := by
  exact ⟨rfl, by decide, rfl⟩

/-- C7, amended: for a nonempty request buffer, if the bytes decode and the
first CRLF line splits into fewer than two space-separated tokens the server
answers 400 "Malformed request" with no routing invocation, and if the bytes
do not decode it answers 400 "Bad request encoding" — the decoding check
coming before any line splitting (an empty buffer is instead treated as a
closed connection and gets no response). -/
theorem claim7_amended_parse_errors (r : Registry) (bytes : List Nat) (hne : bytes ≠ []) :
    (∀ s, decodeUtf8 bytes = some s → (splitChar ' ' (firstLine s)).length < 2 →
      WifiProtocolAPI.serverStep r bytes = ⟨none, some (400, "Malformed request".data)⟩) ∧
    (decodeUtf8 bytes = none →
      WifiProtocolAPI.serverStep r bytes = ⟨none, some (400, "Bad request encoding".data)⟩) := by
  have hemp : bytes.isEmpty = false := by
    cases bytes with
    | nil => exact absurd rfl hne
    | cons b bs => rfl
  constructor
  · intro s hdec hlt
    simp [WifiProtocolAPI.serverStep, hemp, hdec, WifiProtocolAPI.dispatch, hlt]
  · intro hdec
    simp [WifiProtocolAPI.serverStep, hemp, hdec]

/-- C7, witness: the amended theorem applied to the undecodable single byte
0xFF. -/
theorem claim7_witness :
    (([255] : List Nat) ≠ []) ∧
    WifiProtocolAPI.serverStep [] [255] = ⟨none, some (400, "Bad request encoding".data)⟩ :=
  ⟨by decide, (claim7_amended_parse_errors [] [255] (by decide)).2 (by decide)⟩

/-- C8, counterexample to the claim as stated: the registry-based
`handle_path` has no built-in root route, so with the registry as shipped
(empty at module load) the root path yields the unknown-path diagnostic, not
the help text. -/
theorem claim8_counterexample :
    WifiProtocolAPI.handle_path "/".data [] = some ("Unknown path: /".data) ∧
    resolve [] "/".data = Invocation.unknown "/".data ∧
    "Unknown path: /".data ≠ helpText := by
  exact ⟨by decide, by decide, by decide⟩

/-- C8, amended: in the hardcoded dispatcher (`RobotCarWifi.handle_path`,
textually identical to `WifiProtocolAPI.handle_path_old`) every path whose
query-stripped form is `/` or empty returns the fixed help text, before any
command matching; the registry-based `handle_path` has no such built-in
route. -/
theorem claim8_amended_root_help (p : Str)
    (h : stripQuery p = "/".data ∨ stripQuery p = []) :
    RobotCarWifi.handle_path p = ([], helpText) := by
  rcases h with h | h <;> simp [RobotCarWifi.handle_path, h]

/-- C8, witness: the amended theorem applied to the path `/?x=1`. -/
theorem claim8_witness :
    (stripQuery "/?x=1".data = "/".data ∨ stripQuery "/?x=1".data = []) ∧
    RobotCarWifi.handle_path "/?x=1".data = ([], helpText) :=
  ⟨Or.inl (by decide), claim8_amended_root_help "/?x=1".data (Or.inl (by decide))⟩

/-- C9: `compute_command` returns a direction exactly when that direction's
key is held and the other three directional keys are not, and returns stop
exactly when no directional key is held or at least two are. -/
theorem claim9_compute_command (keys : List Char) :
    (compute_command keys = "forward".data ↔
      (keys.contains 'w', keys.contains 'a', keys.contains 's', keys.contains 'd')
        = (true, false, false, false)) ∧
    (compute_command keys = "back".data ↔
      (keys.contains 'w', keys.contains 'a', keys.contains 's', keys.contains 'd')
        = (false, false, true, false)) ∧
    (compute_command keys = "left".data ↔
      (keys.contains 'w', keys.contains 'a', keys.contains 's', keys.contains 'd')
        = (false, true, false, false)) ∧
    (compute_command keys = "right".data ↔
      (keys.contains 'w', keys.contains 'a', keys.contains 's', keys.contains 'd')
        = (false, false, false, true)) ∧
    (compute_command keys = "stop".data ↔
      ((keys.contains 'w', keys.contains 'a', keys.contains 's', keys.contains 'd')
          = (false, false, false, false) ∨
        2 ≤ (if keys.contains 'w' then 1 else 0) + (if keys.contains 'a' then 1 else 0)
            + (if keys.contains 's' then 1 else 0) + (if keys.contains 'd' then 1 else 0))) := by
  cases hw : keys.contains 'w' <;> cases ha : keys.contains 'a' <;>
    cases hs : keys.contains 's' <;> cases hd : keys.contains 'd' <;>
      simp only [compute_command, hw, ha, hs, hd] <;> decide

/-- C10: for every decodable request whose first line has at least two
tokens and whose method token is GET, the class-wrapped server's connection
handling produces no response (the two-argument call
`self.handle_path(path, self.registry)` against the one-parameter signature
raises TypeError, swallowed by the catch-all handler), and `start` always
raises TypeError because it passes `self.registry` to the zero-argument
`listen_http_wireless`. -/
theorem claim10_arity_bug (r : Registry) (bytes : List Nat) (s : Str)
    (hdec : decodeUtf8 bytes = some s)
    (hlen : ¬ (splitChar ' ' (firstLine s)).length < 2)
    (hget : ((splitChar ' ' (firstLine s)).getD 0 [] == "GET".data) = true) :
    WifiCommandServer.connectionStep r bytes = none ∧
    (∀ reg : Registry, WifiCommandServer.start reg = none) := by
  refine ⟨?_, fun _ => rfl⟩
  cases bytes with
  | nil =>
      have hs : ([] : Str) = s := by
        have h0 : decodeUtf8 [] = some ([] : Str) := rfl
        rw [h0] at hdec
        exact Option.some.inj hdec
      rw [← hs] at hlen
      exact absurd (by decide) hlen
  | cons b bs =>
      have hstep : WifiCommandServer.connectionStep r (b :: bs) = WifiCommandServer.dispatch r s := by
        unfold WifiCommandServer.connectionStep
        rw [hdec]
        exact rfl
      rw [hstep]
      unfold WifiCommandServer.dispatch
      rw [if_neg hlen, hget]
      simp [WifiCommandServer.call_handle_path]

/-- C10, witness: the arity theorem applied to the concrete request
`GET /stop HTTP/1.1` against the `/stop` registry. -/
theorem claim10_witness :
    decodeUtf8 getRequestBytes = some ("GET /stop HTTP/1.1\r\n\r\n".data) ∧
    WifiCommandServer.connectionStep stopRegistry getRequestBytes = none ∧
    WifiCommandServer.start stopRegistry = none :=
  ⟨by decide,
   (claim10_arity_bug stopRegistry getRequestBytes "GET /stop HTTP/1.1\r\n\r\n".data
      (by decide) (by decide) (by decide)).1,
   (claim10_arity_bug stopRegistry getRequestBytes "GET /stop HTTP/1.1\r\n\r\n".data
      (by decide) (by decide) (by decide)).2 stopRegistry⟩
